import Mathlib

/-!
Verification development for the adaptive vector-clustering and topic-merging
engine of the AIHeuristicLearningApp repository.

The Python sources are shallowly embedded in Lean:

* pure numeric code becomes Lean functions over `ℚ` (exact rationals) or `ℝ`
  (for the cosine-similarity idealisation, where the source computes square
  roots);
* calls into external collaborators (scikit-learn's `PCA`, `KMeans`,
  `silhouette_score`, the embedding service, the text-summary/keyword
  utilities, the filesystem) are modelled as explicit environment records of
  functions, with fallible calls returning `Except String`;
* a Python exception is an `Except.error`; `try/except` blocks become `match`
  on the `Except` value;
* Python dicts (which iterate in insertion order) become association lists,
  and Python sets become duplicate-free lists; set iteration order is
  determinised to first-insertion order, which none of the proved properties
  depend on.
-/

namespace Spec2Proof

/-! ## Generic list utilities used by the embeddings -/

/-- Helper for `pyDedup`: drop elements already seen, tracking seen elements. -/
def pyDedupAux {α : Type} [DecidableEq α] (seen : List α) : List α → List α
  | [] => []
  | x :: xs => if x ∈ seen then pyDedupAux seen xs else x :: pyDedupAux (seen ++ [x]) xs

/-- Duplicate-free image of a list keeping the first occurrence of each
element, used to model Python `set(xs)` construction (set iteration order is
determinised to first-insertion order). -/
def pyDedup {α : Type} [DecidableEq α] (l : List α) : List α :=
  pyDedupAux [] l

/-- Union of two duplicate-free lists, keeping the order of the first list and
appending the new elements of the second, used to model Python `set.union` /
`set.update`. -/
def pyUnion {α : Type} [DecidableEq α] (a b : List α) : List α :=
  a ++ b.filter (· ∉ a)

/-- Python `range(start, stop, step)` iteration with a positive step (the
sources always pass `max(1, …)`); `max 1 s` is built into the recursion so the
function is total. -/
def upRange (start stop s : ℕ) : List ℕ :=
  if start < stop then start :: upRange (start + max 1 s) stop s else []
termination_by stop - start
decreasing_by omega

theorem mem_upRange {start stop s x : ℕ} (h : x ∈ upRange start stop s) :
    start ≤ x ∧ x < stop := by
  induction start, stop, s using upRange.induct with
  | case1 start stop s hlt ih =>
    rw [upRange, if_pos hlt] at h
    rcases List.mem_cons.mp h with rfl | h
    · exact ⟨le_refl _, hlt⟩
    · have := ih h
      omega
  | case2 start stop s hlt =>
    rw [upRange, if_neg hlt] at h
    simp at h

/-- Contiguous slices `xs[i:i+sz]` for `i in range(0, len(xs), sz)`, used to
model the time-bucket slicing; total because the step is forced positive. -/
def chunkList {α : Type} (sz : ℕ) : List α → List (List α)
  | [] => []
  | x :: xs => (x :: xs).take (max 1 sz) :: chunkList sz ((x :: xs).drop (max 1 sz))
termination_by l => l.length
decreasing_by
  simp only [List.length_drop, List.length_cons]
  omega

theorem chunkList_flatten {α : Type} (sz : ℕ) (l : List α) :
    (chunkList sz l).flatten = l := by
  induction l using chunkList.induct sz with
  | case1 => rw [chunkList]; rfl
  | case2 x xs ih =>
    rw [chunkList]
    simp only [List.flatten_cons, ih]
    exact List.take_append_drop _ _

theorem chunkList_ne_nil {α : Type} (sz : ℕ) (l : List α) :
    ∀ c ∈ chunkList sz l, c ≠ [] := by
  induction l using chunkList.induct sz with
  | case1 => rw [chunkList]; simp
  | case2 x xs ih =>
    rw [chunkList]
    intro c hc
    rcases List.mem_cons.mp hc with rfl | hc
    · simp only [ne_eq, ← List.length_eq_zero]
      rw [List.length_take]
      simp only [List.length_cons]
      omega
    · exact ih c hc

theorem chunkList_nonempty {α : Type} (sz : ℕ) (l : List α) (h : l ≠ []) :
    chunkList sz l ≠ [] := by
  match l with
  | x :: xs =>
    rw [chunkList]
    simp

/-- Insert `x` into a list before the first element `y` with `le x y`, after
all earlier elements. -/
def insertOrdered {α : Type} (le : α → α → Bool) (x : α) : List α → List α
  | [] => [x]
  | y :: ys => if le x y then x :: y :: ys else y :: insertOrdered le x ys

/-- Stable insertion sort: the model of Python's stable `sorted`/`list.sort`
(ties keep their original order). Structural recursion so that concrete calls
reduce inside the kernel. -/
def insertionSort {α : Type} (le : α → α → Bool) : List α → List α
  | [] => []
  | x :: xs => insertOrdered le x (insertionSort le xs)

theorem insertOrdered_perm {α : Type} (le : α → α → Bool) (x : α) (l : List α) :
    (insertOrdered le x l).Perm (x :: l) := by
  induction l with
  | nil => rfl
  | cons y ys ih =>
    rw [insertOrdered]
    by_cases h : le x y = true
    · rw [if_pos h]
    · rw [if_neg h]
      exact (ih.cons y).trans (List.Perm.swap x y ys)

theorem insertionSort_perm {α : Type} (le : α → α → Bool) (l : List α) :
    (insertionSort le l).Perm l := by
  induction l with
  | nil => rfl
  | cons x xs ih =>
    rw [insertionSort]
    exact (insertOrdered_perm le x (insertionSort le xs)).trans (ih.cons x)

/-! ## Cosine similarity (`learning_memory.py`, `cosine_similarity`,
lines 251–282) -/

/-- Embedding of `np.dot(vec1, vec2)` on two float lists. -/
def dotProduct (a b : List ℝ) : ℝ := (List.zipWith (· * ·) a b).sum

/-- Sum of squares of the entries, the square of the L2 norm. -/
def sumSq (a : List ℝ) : ℝ := (a.map (fun x => x * x)).sum

/-- Embedding of `np.linalg.norm(vec)`, the L2 norm. -/
noncomputable def l2norm (a : List ℝ) : ℝ := Real.sqrt (sumSq a)

/-- Embedding of `LearningMemoryService.cosine_similarity`: returns `0` on a
dimension mismatch, `0` when either norm is zero, and otherwise
`dot(a,b) / (‖a‖ * ‖b‖)`. The floats of the source are idealised as reals. -/
noncomputable def cosine_similarity (vec1 vec2 : List ℝ) : ℝ :=
  if vec1.length ≠ vec2.length then 0
  else if l2norm vec1 = 0 ∨ l2norm vec2 = 0 then 0
  else dotProduct vec1 vec2 / (l2norm vec1 * l2norm vec2)

theorem sumSq_nonneg (a : List ℝ) : 0 ≤ sumSq a := by
  apply List.sum_nonneg
  intro x hx
  rcases List.mem_map.mp hx with ⟨y, _, rfl⟩
  exact mul_self_nonneg y

theorem sumSq_pos {a : List ℝ} (h : ∃ x ∈ a, x ≠ 0) : 0 < sumSq a := by
  rcases h with ⟨x, hx, hne⟩
  have hmem : x * x ∈ a.map (fun y => y * y) :=
    List.mem_map.mpr ⟨x, hx, rfl⟩
  have hle : x * x ≤ sumSq a := by
    apply List.single_le_sum _ _ hmem
    intro y hy
    rcases List.mem_map.mp hy with ⟨z, _, rfl⟩
    exact mul_self_nonneg z
  exact lt_of_lt_of_le (mul_self_pos.mpr hne) hle

theorem dotProduct_self (a : List ℝ) : dotProduct a a = sumSq a := by
  unfold dotProduct sumSq
  rw [List.zipWith_same]

theorem sum_map_neg (l : List ℝ) (f : ℝ → ℝ) :
    (l.map (fun x => -f x)).sum = -(l.map f).sum := by
  induction l with
  | nil => simp
  | cons x t ih => simp [ih]; ring

theorem sumSq_map_neg (a : List ℝ) : sumSq (a.map (fun x => -x)) = sumSq a := by
  unfold sumSq
  rw [List.map_map]
  congr 1
  apply List.map_congr_left
  intro x _
  simp

theorem dotProduct_map_neg (a : List ℝ) :
    dotProduct a (a.map (fun x => -x)) = -sumSq a := by
  unfold dotProduct
  rw [List.zipWith_map_right, List.zipWith_same]
  have : (fun x : ℝ => x * -x) = fun x => -(x * x) := by
    funext x; ring
  rw [this, sum_map_neg]
  rfl

theorem l2norm_replicate_zero (n : ℕ) : l2norm (List.replicate n (0 : ℝ)) = 0 := by
  unfold l2norm sumSq
  rw [List.map_replicate]
  simp

/-- C8: `cosine_similarity` computes `dot(a,b) / (‖a‖·‖b‖)`, returns `0`
whenever either vector has zero norm (never dividing by zero), and
consequently, for every vector with a nonzero entry, similarity with itself is
`1`, with its negation `-1`, and with the zero vector `0`. -/
theorem cosine_similarity_spec (v : List ℝ) (h : ∃ x ∈ v, x ≠ 0) :
    cosine_similarity v v = 1 ∧
    cosine_similarity v (v.map (fun x => -x)) = -1 ∧
    cosine_similarity v (List.replicate v.length 0) = 0 ∧
    (∀ w, l2norm v = 0 ∨ l2norm w = 0 → cosine_similarity v w = 0) ∧
    (∀ w, v.length = w.length → l2norm v ≠ 0 → l2norm w ≠ 0 →
      cosine_similarity v w = dotProduct v w / (l2norm v * l2norm w)) := by
  have hpos : 0 < sumSq v := sumSq_pos h
  have hnorm : l2norm v ≠ 0 := by
    unfold l2norm
    exact ne_of_gt (Real.sqrt_pos.mpr hpos)
  have hmul : l2norm v * l2norm v = sumSq v := by
    unfold l2norm
    exact Real.mul_self_sqrt (le_of_lt hpos)
  refine ⟨?_, ?_, ?_, ?_, ?_⟩
  · unfold cosine_similarity
    rw [if_neg (by simp), if_neg (by push_neg; exact ⟨hnorm, hnorm⟩)]
    rw [dotProduct_self, hmul]
    exact div_self (ne_of_gt hpos)
  · have hlen : v.length = (v.map (fun x => -x)).length := by simp
    have hneg : l2norm (v.map (fun x => -x)) = l2norm v := by
      unfold l2norm
      rw [sumSq_map_neg]
    unfold cosine_similarity
    rw [if_neg (by simp), if_neg (by push_neg; rw [hneg]; exact ⟨hnorm, hnorm⟩)]
    rw [dotProduct_map_neg, hneg, hmul]
    rw [neg_div]
    rw [div_self (ne_of_gt hpos)]
  · unfold cosine_similarity
    rw [if_neg (by simp)]
    rw [if_pos (Or.inr (l2norm_replicate_zero v.length))]
  · intro w hw
    unfold cosine_similarity
    by_cases hl : v.length ≠ w.length
    · rw [if_pos hl]
    · rw [if_neg hl, if_pos hw]
  · intro w hlen h1 h2
    unfold cosine_similarity
    rw [if_neg (by simpa using hlen), if_neg (by push_neg; exact ⟨h1, h2⟩)]

/-- Witness for C8 at the concrete vector `[3, 4]`. -/
theorem cosine_similarity_spec_witness :
    (∃ x ∈ [(3 : ℝ), 4], x ≠ 0) ∧ cosine_similarity [(3 : ℝ), 4] [(3 : ℝ), 4] = 1 := by
  have h : ∃ x ∈ [(3 : ℝ), 4], x ≠ 0 := ⟨3, by norm_num, by norm_num⟩
  exact ⟨h, (cosine_similarity_spec [(3 : ℝ), 4] h).1⟩

/-! ## Similarity ranking (`learning_memory.py`, `retrieve_similar_memories`,
scoring loop at lines 201–244) -/

/-- A stored memory record as read by the ranking loop: the `id`, the text
`content` (`""` models a missing or empty field, which is falsy in Python) and
the `embedding` (`[]` models a missing or empty field). -/
structure RetrMemory where
  id : String
  content : String
  embedding : List ℝ

/-- Python `s.lower().split()`: lowercase, split on whitespace runs, no empty
words. -/
def pyWords (s : String) : List String :=
  (s.toLower.split Char.isWhitespace).filter (· ≠ "")

/-- The set of lowercase whitespace-tokenized words of a string. -/
def wordSet (s : String) : Finset String := (pyWords s).toFinset

/-- The lexical fallback score of `retrieve_similar_memories` (lines 213–226):
Jaccard word overlap `len(intersection) / max(1, len(union))`, `0` when either
word set is empty or when the record has no content. -/
noncomputable def lexicalScore (query : String) (m : RetrMemory) : ℝ :=
  if m.content = "" then 0
  else
    let qw := wordSet query
    let mw := wordSet m.content
    if qw = ∅ ∨ mw = ∅ then 0
    else ((qw ∩ mw).card : ℝ) / ((max 1 (qw ∪ mw).card : ℕ) : ℝ)

/-- One iteration of the scoring loop (lines 202–236): a record with a missing
or empty embedding is skipped (`continue`, modelled by `none`); a record whose
embedding dimension differs from the query is scored lexically; otherwise it is
scored by cosine similarity. -/
noncomputable def scoreMemory (query : String) (queryVec : List ℝ) (m : RetrMemory) :
    Option ℝ :=
  if m.embedding.isEmpty then none
  else if m.embedding.length ≠ queryVec.length then some (lexicalScore query m)
  else some (cosine_similarity queryVec m.embedding)

/-- The `scored_memories` list built by the loop, in input order. -/
noncomputable def scoredMemories (query : String) (queryVec : List ℝ)
    (ms : List RetrMemory) : List (RetrMemory × ℝ) :=
  ms.filterMap (fun m => (scoreMemory query queryVec m).map (fun s => (m, s)))

/-- Embedding of `scored_memories.sort(key=lambda x: x[1], reverse=True)`: stable descending
sort by score (line 238). -/
noncomputable def rankedMemories (query : String) (queryVec : List ℝ)
    (ms : List RetrMemory) : List (RetrMemory × ℝ) :=
  insertionSort (fun a b => decide (b.2 ≤ a.2)) (scoredMemories query queryVec ms)

/-- C4 counterexample: a record with an absent embedding is silently skipped by
the scoring loop — it does not appear among the scored, ranked candidates with
a lexical score, contrary to the claim. -/
theorem scoreMemory_drops_embeddingless :
    scoredMemories "hello" [1, 0] [⟨"m1", "hello world", []⟩] = [] ∧
    rankedMemories "hello" [1, 0] [⟨"m1", "hello world", []⟩] = [] := by
  constructor
  · simp [scoredMemories, scoreMemory]
  · simp [rankedMemories, scoredMemories, scoreMemory, insertionSort]

/-- C4 amended: a record whose embedding is *present* but dimension-mismatched
is not discarded — it is scored by lexical Jaccard similarity and appears among
the scored, ranked candidates; a record with an *absent* embedding, however, is
silently skipped and never appears among the candidates. -/
theorem retrieve_similar_memories_degradation (query : String) (queryVec : List ℝ)
    (ms : List RetrMemory) :
    (∀ r ∈ scoredMemories query queryVec ms, r.1.embedding ≠ []) ∧
    (∀ m ∈ ms, m.embedding ≠ [] → m.embedding.length ≠ queryVec.length →
      (m, lexicalScore query m) ∈ scoredMemories query queryVec ms ∧
      (m, lexicalScore query m) ∈ rankedMemories query queryVec ms) := by
  constructor
  · intro r hr
    rcases List.mem_filterMap.mp hr with ⟨m, _, hm⟩
    rcases Option.map_eq_some'.mp hm with ⟨s, hs, hrs⟩
    intro hemb
    rw [← hrs] at hemb
    simp only at hemb
    unfold scoreMemory at hs
    rw [if_pos (by simp [hemb])] at hs
    exact Option.noConfusion hs
  · intro m hm hemb hdim
    have hscore : scoreMemory query queryVec m = some (lexicalScore query m) := by
      unfold scoreMemory
      rw [if_neg (by simpa using hemb), if_pos hdim]
    have hmem : (m, lexicalScore query m) ∈ scoredMemories query queryVec ms := by
      apply List.mem_filterMap.mpr
      exact ⟨m, hm, by rw [hscore]; rfl⟩
    refine ⟨hmem, ?_⟩
    unfold rankedMemories
    exact (insertionSort_perm _ _).mem_iff.mpr hmem

/-- Witness for the amended C4 at a concrete two-record store: the record with
a 3-dimensional embedding, queried with a 2-dimensional vector, is kept with
its lexical score. -/
theorem retrieve_similar_memories_degradation_witness :
    ((⟨"m2", "the hello", [1, 2, 3]⟩ : RetrMemory) ∈
        [(⟨"m1", "a", [1, 0]⟩ : RetrMemory), ⟨"m2", "the hello", [1, 2, 3]⟩] ∧
      (⟨"m2", "the hello", [1, 2, 3]⟩ : RetrMemory).embedding ≠ [] ∧
      (⟨"m2", "the hello", [1, 2, 3]⟩ : RetrMemory).embedding.length ≠
        ([(1 : ℝ), 0]).length) ∧
    ((⟨"m2", "the hello", [1, 2, 3]⟩ : RetrMemory),
        lexicalScore "hello" ⟨"m2", "the hello", [1, 2, 3]⟩) ∈
      scoredMemories "hello" [1, 0]
        [⟨"m1", "a", [1, 0]⟩, ⟨"m2", "the hello", [1, 2, 3]⟩] := by
  have hm : (⟨"m2", "the hello", [1, 2, 3]⟩ : RetrMemory) ∈
      [(⟨"m1", "a", [1, 0]⟩ : RetrMemory), ⟨"m2", "the hello", [1, 2, 3]⟩] := by simp
  have h1 : (⟨"m2", "the hello", [1, 2, 3]⟩ : RetrMemory).embedding ≠ [] := by simp
  have h2 : (⟨"m2", "the hello", [1, 2, 3]⟩ : RetrMemory).embedding.length ≠
      ([(1 : ℝ), 0]).length := by simp
  exact ⟨⟨hm, h1, h2⟩,
    ((retrieve_similar_memories_degradation "hello" [1, 0] _).2 _ hm h1 h2).1⟩

/-! ## Cluster merging (`learning_memory.py`, `cluster_memories`, merge pass at
lines 824–882) -/

/-- A discovered topic cluster as stored in the `clusters` dict: member ids,
accumulated relevance, keyword list. -/
structure TopicCluster where
  memory_ids : List String
  relevance : ℚ
  keywords : List String
deriving DecidableEq

/-- The module-global lookup `self.extract_keywords_from_text.__globals__.get('topic_mappings', {})`
performed at line 857. `topic_mappings` is a *local* variable of
`extract_keywords_from_text` (line 589), not a module global, so the lookup
always yields the empty mapping; we embed it as the empty key list. -/
def topicMappingsLookup : List String := []

/-- Accumulator of one outer iteration of the merge loop: the growing merged
member set, keyword set and relevance, the `merged_clusters` marks, and the
`should_merge` flag. -/
structure MergeAcc where
  mset : List String
  mkw : List String
  mrel : ℚ
  marks : List String
  should : Bool
deriving DecidableEq

/-- The inner loop over `cluster_items[i+1:]` (lines 834–848): clusters not yet
absorbed whose member-id Jaccard similarity with the growing merged set exceeds
`0.5` are absorbed (union of members and keywords, summed relevance) and marked. -/
def innerMerge : List (String × TopicCluster) → MergeAcc → MergeAcc
  | [], acc => acc
  | (t2, d2) :: rest, acc =>
    if t2 ∈ acc.marks then innerMerge rest acc
    else
      let set2 := pyDedup d2.memory_ids
      if acc.mset = [] ∨ set2 = [] then innerMerge rest acc
      else
        let inter := acc.mset.filter (fun x => x ∈ set2)
        let uni := pyUnion acc.mset set2
        if ((inter.length : ℚ) / (uni.length : ℚ)) > 1 / 2 then
          innerMerge rest
            ⟨pyUnion acc.mset set2, pyUnion acc.mkw (pyDedup d2.keywords),
              acc.mrel + d2.relevance, acc.marks ++ [t2], true⟩
        else innerMerge rest acc

/-- The outer loop (lines 827–875): each unabsorbed cluster absorbs its
overlapping successors, then is itself marked merged and an entry for the
merged cluster is recorded under `merged_name` — the longest merged keyword
(`sorted(..., key=len, reverse=True)`), preferring keywords found in the
(empty, see `topicMappingsLookup`) mapping table, with `"学习主题"` as the default.
Returns the final `merged_clusters` marks and the dict assignments made. -/
def mergePass :
    List (String × TopicCluster) → List String → List (String × TopicCluster) →
      List String × List (String × TopicCluster)
  | [], marks, asgn => (marks, asgn)
  | (t1, d1) :: rest, marks, asgn =>
    if t1 ∈ marks then mergePass rest marks asgn
    else
      let acc := innerMerge rest ⟨pyDedup d1.memory_ids, pyDedup d1.keywords,
        d1.relevance, marks, false⟩
      if acc.should ∨ t1 ∉ acc.marks then
        let kwSorted := insertionSort (fun a b => decide (b.length ≤ a.length)) acc.mkw
        let mapped := kwSorted.filter (fun kw => kw ∈ topicMappingsLookup)
        let name := match mapped with
          | kw :: _ => kw
          | [] => match kwSorted with
            | kw :: _ => kw
            | [] => "学习主题"
        mergePass rest (acc.marks ++ [t1]) (asgn ++ [(name, ⟨acc.mset, acc.mrel, acc.mkw⟩)])
      else mergePass rest acc.marks asgn

/-- Embedding of `clusters[name] = data` on an insertion-ordered dict: overwrite in place if
the key exists, else append. -/
def dictAssign (d : List (String × TopicCluster)) (kv : String × TopicCluster) :
    List (String × TopicCluster) :=
  if (d.map Prod.fst).contains kv.1 then d.map (fun p => if p.1 = kv.1 then kv else p)
  else d ++ [kv]

/-- The full merge step of `cluster_memories` (lines 824–882): run the merge
pass over a snapshot of the dict, apply its assignments, then delete every
topic recorded in `merged_clusters` (lines 877–880). -/
def mergeClusters (clusters : List (String × TopicCluster)) :
    List (String × TopicCluster) :=
  let r := mergePass clusters [] []
  let updated := r.2.foldl dictAssign clusters
  r.1.foldl (fun d t => d.filter (fun p => p.1 ≠ t)) updated

/-- C5: the merge step is not idempotent on its own output. Merging the
one-cluster collection `{"a": {memory_ids: [m1,m2], keywords: [a, verylongkw]}}`
yields `{"verylongkw": …}` (the surviving cluster is re-keyed by its longest
keyword and the old key deleted), but merging that output again yields the
empty collection: the re-inserted key `verylongkw` is itself recorded in
`merged_clusters` and deleted by the cleanup loop. -/
theorem mergeClusters_not_idempotent :
    mergeClusters (mergeClusters [("a", ⟨["m1", "m2"], 1, ["a", "verylongkw"]⟩)]) ≠
      mergeClusters [("a", ⟨["m1", "m2"], 1, ["a", "verylongkw"]⟩)] := by
  decide

/-! ## Temporal fallback clustering
(`learning_memory/learning_memory_service.py`, `time_based_clustering`,
lines 585–707) -/

/-- A memory record as read by the temporal fallback: `""`/`[]` model missing
or empty optional fields, `timestamp` is `none` when the key is absent. -/
structure TimeMemory where
  id : String
  content : String
  summary : String
  keywords : List String
  timestamp : Option String
  embedding : List ℚ
deriving DecidableEq

/-- A cluster produced by the temporal fallback. -/
structure TimeCluster where
  topic : String
  memory_ids : List String
  keywords : List String
  summary : String
  centroid : List ℚ
deriving DecidableEq

/-- External text utilities used by the temporal fallback (the spec treats
keyword extraction and summarisation as external text-utility collaborators)
plus the wall clock used for cluster-id suffixes. -/
structure TextEnv where
  summarize : String → String
  extractKeywords : String → List String
  nowMs : ℕ

/-- Embedding of `m.get('timestamp', '2020-01-01T00:00:00Z')`, the sort key (line 601). -/
def tsKey (m : TimeMemory) : String := m.timestamp.getD "2020-01-01T00:00:00Z"

/-- The contents gathered per bucket (lines 627–633): the summary when present,
else the first 200 characters of the content, skipping records with neither. -/
def bucketContents (b : List TimeMemory) : List String :=
  b.filterMap (fun m =>
    if m.summary ≠ "" then some m.summary
    else if m.content ≠ "" then some (m.content.take 200) else none)

/-- Embedding of `np.mean(vs, axis=0).tolist()` on same-dimension vectors. -/
def vecMean (vs : List (List ℚ)) : List ℚ :=
  match vs with
  | [] => []
  | v0 :: _ =>
    (List.range v0.length).map
      (fun j => ((vs.map (fun v => v.getD j 0)).sum) / (vs.length : ℚ))

/-- The bucket centroid (lines 654–664): mean of the non-empty embeddings whose
dimension matches the first one, `[]` when there are none. -/
def bucketCentroid (b : List TimeMemory) : List ℚ :=
  let valid := b.filterMap (fun m => if m.embedding ≠ [] then some m.embedding else none)
  match valid with
  | [] => []
  | v0 :: _ =>
    let same := valid.filter (fun v => v.length = v0.length)
    match same with
    | [] => []
    | _ :: _ => vecMean same

/-- The cluster built for time bucket `i` (lines 616–687): member ids in bucket
order, deduplicated keywords capped at 8 (re-extracting from the combined
content when fewer than 3), a summary of the combined content, the centroid,
and a topic derived from the first keywords, the summary, or the default. -/
def mkTimeCluster (env : TextEnv) (i : ℕ) (b : List TimeMemory) : TimeCluster :=
  let memory_ids := b.map (·.id)
  let combined := String.intercalate " " (bucketContents b)
  let summary := if combined ≠ "" then env.summarize combined else ""
  let keywords1 := (pyDedup ((b.map (·.keywords)).flatten)).take 8
  let keywords :=
    if keywords1.length < 3 ∧ combined ≠ "" then
      (pyDedup (keywords1 ++ env.extractKeywords combined)).take 8
    else keywords1
  let topic :=
    match keywords with
    | k0 :: k1 :: _ => k0 ++ " 与 " ++ k1
    | [k0] => k0
    | [] => if summary ≠ "" then summary.take 50 else "时间段 " ++ toString (i + 1)
  ⟨topic, memory_ids, keywords, summary, bucketCentroid b⟩

/-- Embedding of `time_based_clustering`: sort the records by timestamp
(stable, string order on ISO timestamps), slice them into
`range(0, N, bucket_size)` buckets with
`bucket_size = max(1, N // min(10, max(2, N // 10)))`, and emit one cluster per
non-empty bucket keyed by `cluster_time_{i}_{now_ms}`. -/
def time_based_clustering (env : TextEnv) (memories : List TimeMemory) :
    List (String × TimeCluster) :=
  let sorted := insertionSort (fun a b => decide (tsKey a ≤ tsKey b)) memories
  let nBuckets := min 10 (max 2 (sorted.length / 10))
  let bucketSize := max 1 (sorted.length / nBuckets)
  let buckets := chunkList bucketSize sorted
  buckets.enum.filterMap (fun p =>
    if p.2 = [] then none
    else some ("cluster_time_" ++ toString p.1 ++ "_" ++ toString env.nowMs,
      mkTimeCluster env p.1 p.2))

theorem filterMap_ite_eq_map {α β : Type} (pred : α → Prop) [DecidablePred pred]
    (g : α → β) (l : List α) (h : ∀ a ∈ l, ¬ pred a) :
    l.filterMap (fun a => if pred a then none else some (g a)) = l.map g := by
  induction l with
  | nil => rfl
  | cons x xs ih =>
    rw [List.filterMap_cons, if_neg (h x (by simp)), List.map_cons]
    rw [ih (fun a ha => h a (by simp [ha]))]

theorem enum_snd_mem {α : Type} (l : List α) (p : ℕ × α) (hp : p ∈ l.enum) :
    p.2 ∈ l := by
  have := List.mem_map_of_mem Prod.snd hp
  rwa [List.enum_map_snd] at this

/-- C9: on any non-empty record list the temporal fallback returns a non-empty
cluster collection, every cluster has a non-empty member list, and the
concatenation of all member-id lists is a permutation of the input id list
(every input id lands in exactly one bucket). -/
theorem time_based_clustering_partition (env : TextEnv) (ms : List TimeMemory)
    (h : ms ≠ []) :
    time_based_clustering env ms ≠ [] ∧
    (∀ c ∈ time_based_clustering env ms, c.2.memory_ids ≠ []) ∧
    (((time_based_clustering env ms).map (fun c => c.2.memory_ids)).flatten).Perm
      (ms.map (·.id)) := by
  unfold time_based_clustering
  set sorted := insertionSort (fun a b => decide (tsKey a ≤ tsKey b)) ms with hsorted
  have hsp : sorted.Perm ms := insertionSort_perm _ ms
  have hsne : sorted ≠ [] := by
    intro hnil
    have := hsp.length_eq
    rw [hnil] at this
    exact h (List.length_eq_zero.mp this.symm)
  set bucketSize := max 1 (sorted.length / min 10 (max 2 (sorted.length / 10)))
    with hbs
  set buckets := chunkList bucketSize sorted with hbuckets
  have hbne : ∀ b ∈ buckets, b ≠ [] := chunkList_ne_nil _ _
  have hnoskip : ∀ p ∈ buckets.enum, ¬ p.2 = [] :=
    fun p hp => hbne p.2 (enum_snd_mem _ _ hp)
  rw [filterMap_ite_eq_map _ _ _ hnoskip]
  refine ⟨?_, ?_, ?_⟩
  · intro hnil
    rw [List.map_eq_nil_iff, List.enum_eq_nil] at hnil
    exact chunkList_nonempty bucketSize sorted hsne hnil
  · intro c hc
    rcases List.mem_map.mp hc with ⟨p, hp, rfl⟩
    simp only [mkTimeCluster, ne_eq, List.map_eq_nil_iff]
    exact hbne p.2 (enum_snd_mem _ _ hp)
  · rw [List.map_map]
    have hmapsnd :
        (buckets.enum.map ((fun c : String × TimeCluster => c.2.memory_ids) ∘
          (fun p : ℕ × List TimeMemory =>
            ("cluster_time_" ++ toString p.1 ++ "_" ++ toString env.nowMs,
              mkTimeCluster env p.1 p.2)))) =
        buckets.map (fun b => b.map (·.id)) := by
      have : ∀ (l : List (ℕ × List TimeMemory)),
          (l.map ((fun c : String × TimeCluster => c.2.memory_ids) ∘
            (fun p : ℕ × List TimeMemory =>
              ("cluster_time_" ++ toString p.1 ++ "_" ++ toString env.nowMs,
                mkTimeCluster env p.1 p.2)))) = l.map (fun p => p.2.map (·.id)) := by
        intro l
        apply List.map_congr_left
        intro p _
        rfl
      rw [this]
      have := List.enum_map_snd buckets
      calc buckets.enum.map (fun p => p.2.map (·.id))
          = (buckets.enum.map Prod.snd).map (fun b => b.map (·.id)) := by
            rw [List.map_map]; rfl
        _ = buckets.map (fun b => b.map (·.id)) := by rw [this]
    rw [hmapsnd]
    rw [← List.map_flatten]
    rw [hbuckets, chunkList_flatten]
    exact hsp.map _

/-- Witness for C9: five records without embeddings but with distinct
timestamps spanning a day. -/
theorem time_based_clustering_partition_witness :
    ([(⟨"id1", "c1", "", [], some "2024-01-01T01:00:00Z", []⟩ : TimeMemory),
      ⟨"id2", "c2", "", [], some "2024-01-01T05:00:00Z", []⟩,
      ⟨"id3", "c3", "", [], some "2024-01-01T09:00:00Z", []⟩,
      ⟨"id4", "c4", "", [], some "2024-01-01T13:00:00Z", []⟩,
      ⟨"id5", "c5", "", [], some "2024-01-01T23:00:00Z", []⟩] ≠
        ([] : List TimeMemory)) ∧
    time_based_clustering ⟨fun _ => "摘要", fun _ => [], 1700000000000⟩
      [⟨"id1", "c1", "", [], some "2024-01-01T01:00:00Z", []⟩,
       ⟨"id2", "c2", "", [], some "2024-01-01T05:00:00Z", []⟩,
       ⟨"id3", "c3", "", [], some "2024-01-01T09:00:00Z", []⟩,
       ⟨"id4", "c4", "", [], some "2024-01-01T13:00:00Z", []⟩,
       ⟨"id5", "c5", "", [], some "2024-01-01T23:00:00Z", []⟩] ≠ [] := by
  have h : ([(⟨"id1", "c1", "", [], some "2024-01-01T01:00:00Z", []⟩ : TimeMemory),
      ⟨"id2", "c2", "", [], some "2024-01-01T05:00:00Z", []⟩,
      ⟨"id3", "c3", "", [], some "2024-01-01T09:00:00Z", []⟩,
      ⟨"id4", "c4", "", [], some "2024-01-01T13:00:00Z", []⟩,
      ⟨"id5", "c5", "", [], some "2024-01-01T23:00:00Z", []⟩] ≠
        ([] : List TimeMemory)) := by simp
  exact ⟨h, (time_based_clustering_partition ⟨fun _ => "摘要", fun _ => [], 1700000000000⟩
    _ h).1⟩

/-! ## Embedding refresh inside `cluster_memories` (`learning_memory.py`,
lines 666–728): the engine rewrites the `embedding` field of input records and
persists them back to the per-user files. -/

/-- A memory record as read by `cluster_memories`: id, content, embedding
(`[]` models a missing or empty field). -/
structure ClusterMemory where
  id : String
  content : String
  embedding : List ℚ
deriving DecidableEq, Inhabited

/-- The external collaborators of the embedding-refresh step: the embedding
service (`await self.embedding_service.get_embeddings`, fallible) and the
filesystem (`os.path.exists`), plus `self.memory_dir`. -/
structure EmbedEnv where
  getEmbeddings : List String → Except String (List (List ℚ))
  fileExists : String → Bool
  memoryDir : String

/-- Embedding of `all(v == 0 for v in embedding[:10])` (lines 677, 688). -/
def zeroLeading (emb : List ℚ) : Bool := (emb.take 10).all (· == 0)

/-- Lines 672–680: the expected dimension is the length of the first non-empty
embedding whose first 10 entries are not all zero, defaulting to 3072. -/
def expectedDimOf (memories : List ClusterMemory) : ℕ :=
  match memories.find? (fun m => !m.embedding.isEmpty && !zeroLeading m.embedding) with
  | some m => m.embedding.length
  | none => 3072

/-- Line 688: a record needs a fresh embedding when its embedding is empty,
dimension-mismatched, or zero in its first 10 entries. -/
def needsEmbedding (ed : ℕ) (m : ClusterMemory) : Bool :=
  m.embedding.isEmpty || m.embedding.length != ed || zeroLeading m.embedding

/-- Embedding of the path join of `self.memory_dir`, the user id, and the record id with a `.json` suffix. -/
def memoryFilePath (dir : String) (userId : ℕ) (memId : String) : String :=
  dir ++ "/" ++ toString userId ++ "/" ++ memId ++ ".json"

/-- Lines 704–722: `for idx, embedding in zip(memories_need_embedding,
embeddings): memories[idx]["embedding"] = embedding`, followed by a JSON dump
of the updated record to its file when that file exists. Flagged records are
updated in order, consuming one returned vector each (`zip` stops silently when
the vectors run out); the second component collects the file writes. -/
def applyEmbeddings (env : EmbedEnv) (userId : ℕ) (ed : ℕ) :
    List ClusterMemory → List (List ℚ) →
      List ClusterMemory × List (String × ClusterMemory)
  | [], _ => ([], [])
  | m :: ms, es =>
    if needsEmbedding ed m then
      match es with
      | [] =>
        let r := applyEmbeddings env userId ed ms []
        (m :: r.1, r.2)
      | e :: es' =>
        let m' : ClusterMemory := ⟨m.id, m.content, e⟩
        let r := applyEmbeddings env userId ed ms es'
        let p := memoryFilePath env.memoryDir userId m.id
        (m' :: r.1, (if env.fileExists p then [(p, m')] else []) ++ r.2)
    else
      let r := applyEmbeddings env userId ed ms es
      (m :: r.1, r.2)

/-- The embedding-refresh step of `cluster_memories` (lines 666–728): detect
the expected dimension, collect the contents of the flagged records, call the
embedding service for them (a service failure is caught and leaves every record
untouched), and write the returned vectors into the flagged records, persisting
each updated record whose file exists. Returns the updated record list and the
file writes performed. -/
def refreshEmbeddings (env : EmbedEnv) (userId : ℕ) (memories : List ClusterMemory) :
    List ClusterMemory × List (String × ClusterMemory) :=
  let ed := expectedDimOf memories
  let flagged := memories.filter (needsEmbedding ed)
  if flagged.isEmpty then (memories, [])
  else
    match env.getEmbeddings (flagged.map (·.content)) with
    | .error _ => (memories, [])
    | .ok es => applyEmbeddings env userId ed memories es

/-- C10 counterexample: `cluster_memories` mutates the caller's records — a
record with an empty embedding has a freshly generated embedding written into
it (and is persisted back to its file), so the output records differ from the
input. -/
theorem cluster_memories_mutates_input :
    (refreshEmbeddings
        ⟨fun ts => .ok (ts.map (fun _ => [1])), fun _ => true, "memory_space"⟩ 1
        [⟨"m1", "hello", []⟩]).1 ≠ [⟨"m1", "hello", []⟩] ∧
    (refreshEmbeddings
        ⟨fun ts => .ok (ts.map (fun _ => [1])), fun _ => true, "memory_space"⟩ 1
        [⟨"m1", "hello", []⟩]).2 ≠ [] := by
  decide

theorem applyEmbeddings_spec (env : EmbedEnv) (userId : ℕ) (ed : ℕ) :
    ∀ (ms : List ClusterMemory) (es : List (List ℚ)),
      es.length = (ms.filter (needsEmbedding ed)).length →
      (applyEmbeddings env userId ed ms es).1.length = ms.length ∧
      (∀ i, i < ms.length →
        (needsEmbedding ed (ms.getD i default) = false →
          (applyEmbeddings env userId ed ms es).1.getD i default = ms.getD i default) ∧
        (needsEmbedding ed (ms.getD i default) = true →
          ((applyEmbeddings env userId ed ms es).1.getD i default).id =
            (ms.getD i default).id ∧
          ((applyEmbeddings env userId ed ms es).1.getD i default).content =
            (ms.getD i default).content ∧
          ((applyEmbeddings env userId ed ms es).1.getD i default).embedding =
            es.getD ((ms.take i).countP (needsEmbedding ed)) default)) ∧
      (∀ w ∈ (applyEmbeddings env userId ed ms es).2,
        env.fileExists w.1 = true ∧ w.2 ∈ (applyEmbeddings env userId ed ms es).1) := by
  intro ms
  induction ms with
  | nil =>
    intro es _
    refine ⟨rfl, ?_, ?_⟩
    · intro i hi
      simp at hi
    · intro w hw
      simp [applyEmbeddings] at hw
  | cons m ms ih =>
    intro es hlen
    by_cases hneed : needsEmbedding ed m = true
    · rw [List.filter_cons_of_pos hneed, List.length_cons] at hlen
      match es with
      | [] => simp at hlen
      | e :: es' =>
        rw [List.length_cons] at hlen
        have hlen' : es'.length = (ms.filter (needsEmbedding ed)).length :=
          Nat.succ_injective hlen
        have IH := ih es' hlen'
        have happ : applyEmbeddings env userId ed (m :: ms) (e :: es') =
            (⟨m.id, m.content, e⟩ :: (applyEmbeddings env userId ed ms es').1,
              (if env.fileExists (memoryFilePath env.memoryDir userId m.id) then
                [(memoryFilePath env.memoryDir userId m.id, ⟨m.id, m.content, e⟩)]
              else []) ++ (applyEmbeddings env userId ed ms es').2) := by
          rw [applyEmbeddings, if_pos hneed]
        rw [happ]
        dsimp only
        refine ⟨by simp [IH.1], ?_, ?_⟩
        · intro i hi
          match i with
          | 0 =>
            constructor
            · intro hfalse
              rw [List.getD_cons_zero] at hfalse
              rw [hneed] at hfalse
              exact Bool.noConfusion hfalse
            · intro _
              refine ⟨rfl, rfl, ?_⟩
              simp
          | Nat.succ j =>
            have hj : j < ms.length := by
              rw [List.length_cons] at hi
              omega
            have := (IH.2.1) j hj
            constructor
            · intro hfalse
              rw [List.getD_cons_succ] at hfalse ⊢
              rw [List.getD_cons_succ]
              exact this.1 hfalse
            · intro htrue
              rw [List.getD_cons_succ] at htrue ⊢
              rw [List.take_succ_cons, List.countP_cons_of_pos _ _ hneed,
                List.getD_cons_succ]
              exact this.2 htrue
        · intro w hw
          rcases List.mem_append.mp hw with hw1 | hw2
          · by_cases hex : env.fileExists (memoryFilePath env.memoryDir userId m.id) = true
            · rw [if_pos hex] at hw1
              rcases List.mem_singleton.mp hw1 with rfl
              exact ⟨hex, by simp⟩
            · rw [if_neg hex] at hw1
              simp at hw1
          · have := IH.2.2 w hw2
            exact ⟨this.1, List.mem_cons_of_mem _ this.2⟩
    · have hneedf : needsEmbedding ed m = false := by
        revert hneed
        cases needsEmbedding ed m <;> simp
      rw [List.filter_cons_of_neg (by simp [hneedf])] at hlen
      have IH := ih es hlen
      have happ : applyEmbeddings env userId ed (m :: ms) es =
          (m :: (applyEmbeddings env userId ed ms es).1,
            (applyEmbeddings env userId ed ms es).2) := by
        match es with
        | [] => rw [applyEmbeddings, if_neg (by simp [hneedf])]
        | e :: es' => rw [applyEmbeddings, if_neg (by simp [hneedf])]
      rw [happ]
      dsimp only
      refine ⟨by simp [IH.1], ?_, ?_⟩
      · intro i hi
        match i with
        | 0 =>
          constructor
          · intro _
            rfl
          · intro htrue
            rw [List.getD_cons_zero] at htrue
            rw [hneedf] at htrue
            exact Bool.noConfusion htrue
        | Nat.succ j =>
          have hj : j < ms.length := by
            rw [List.length_cons] at hi
            omega
          have := (IH.2.1) j hj
          constructor
          · intro hfalse
            rw [List.getD_cons_succ] at hfalse ⊢
            rw [List.getD_cons_succ]
            exact this.1 hfalse
          · intro htrue
            rw [List.getD_cons_succ] at htrue ⊢
            rw [List.getD_cons_succ]
            refine ⟨(this.2 htrue).1, (this.2 htrue).2.1, ?_⟩
            rw [(this.2 htrue).2.2]
            congr 1
            rw [List.take_succ_cons, List.countP_cons, hneedf]
            simp
      · intro w hw
        have := IH.2.2 w hw
        exact ⟨this.1, List.mem_cons_of_mem _ this.2⟩

/-- C10 amended: the engine *does* mutate the caller's records. When the
embedding service succeeds and returns one vector per flagged record, every
record whose embedding is absent, dimension-mismatched, or zero-prefixed gets
the corresponding generated vector written into its `embedding` field (its id
and content unchanged), every other record is returned unchanged, and each file
write performed targets an existing file and persists one of the updated
records. -/
theorem cluster_memories_mutation_spec (env : EmbedEnv) (userId : ℕ)
    (ms : List ClusterMemory) (es : List (List ℚ))
    (hne : (ms.filter (needsEmbedding (expectedDimOf ms))).isEmpty = false)
    (hok : env.getEmbeddings
      ((ms.filter (needsEmbedding (expectedDimOf ms))).map (·.content)) = .ok es)
    (hlen : es.length = (ms.filter (needsEmbedding (expectedDimOf ms))).length) :
    (refreshEmbeddings env userId ms).1.length = ms.length ∧
    (∀ i, i < ms.length →
      (needsEmbedding (expectedDimOf ms) (ms.getD i default) = false →
        (refreshEmbeddings env userId ms).1.getD i default = ms.getD i default) ∧
      (needsEmbedding (expectedDimOf ms) (ms.getD i default) = true →
        ((refreshEmbeddings env userId ms).1.getD i default).id =
          (ms.getD i default).id ∧
        ((refreshEmbeddings env userId ms).1.getD i default).content =
          (ms.getD i default).content ∧
        ((refreshEmbeddings env userId ms).1.getD i default).embedding =
          es.getD ((ms.take i).countP (needsEmbedding (expectedDimOf ms))) default)) ∧
    (∀ w ∈ (refreshEmbeddings env userId ms).2,
      env.fileExists w.1 = true ∧ w.2 ∈ (refreshEmbeddings env userId ms).1) := by
  have hrw : refreshEmbeddings env userId ms =
      applyEmbeddings env userId (expectedDimOf ms) ms es := by
    simp only [refreshEmbeddings, hne, hok]
    rfl
  rw [hrw]
  exact applyEmbeddings_spec env userId (expectedDimOf ms) ms es hlen

/-- Witness for the amended C10 at a concrete one-record input whose embedding
is absent. -/
theorem cluster_memories_mutation_spec_witness :
    ((([(⟨"m1", "hello", []⟩ : ClusterMemory)].filter
        (needsEmbedding (expectedDimOf [⟨"m1", "hello", []⟩]))).isEmpty = false) ∧
      (EmbedEnv.getEmbeddings
          ⟨fun ts => .ok (ts.map (fun _ => [1])), fun _ => true, "memory_space"⟩
          (([(⟨"m1", "hello", []⟩ : ClusterMemory)].filter
            (needsEmbedding (expectedDimOf [⟨"m1", "hello", []⟩]))).map (·.content)) =
        .ok [[1]]) ∧
      ([[(1 : ℚ)]].length =
        ([(⟨"m1", "hello", []⟩ : ClusterMemory)].filter
          (needsEmbedding (expectedDimOf [⟨"m1", "hello", []⟩]))).length)) ∧
    (refreshEmbeddings
        ⟨fun ts => .ok (ts.map (fun _ => [1])), fun _ => true, "memory_space"⟩ 1
        [⟨"m1", "hello", []⟩]).1.length = [(⟨"m1", "hello", []⟩ : ClusterMemory)].length := by
  have h1 : (([(⟨"m1", "hello", []⟩ : ClusterMemory)].filter
      (needsEmbedding (expectedDimOf [⟨"m1", "hello", []⟩]))).isEmpty = false) := by decide
  have h2 : (EmbedEnv.getEmbeddings
      ⟨fun ts => .ok (ts.map (fun _ => [1])), fun _ => true, "memory_space"⟩
      (([(⟨"m1", "hello", []⟩ : ClusterMemory)].filter
        (needsEmbedding (expectedDimOf [⟨"m1", "hello", []⟩]))).map (·.content)) =
      .ok [[1]]) := by rfl
  have h3 : ([[(1 : ℚ)]].length =
      ([(⟨"m1", "hello", []⟩ : ClusterMemory)].filter
        (needsEmbedding (expectedDimOf [⟨"m1", "hello", []⟩]))).length) := by decide
  exact ⟨⟨h1, h2, h3⟩,
    (cluster_memories_mutation_spec _ 1 _ [[1]] h1 h2 h3).1⟩

/-! ## Clustering core (`api/clustering/clustering_core.py`) -/

/-- The configuration of a scikit-learn `KMeans`/`MiniBatchKMeans` estimator as
constructed by the sources; `randomState = none` models an omitted
`random_state` (the estimator then draws from the global RNG). -/
structure KMeansSpec where
  nClusters : ℕ
  randomState : Option ℕ
  nInit : Option ℕ
  batchSize : Option ℕ
  maxIter : Option ℕ
  algorithm : Option String
  miniBatch : Bool
deriving DecidableEq

/-- Spec of `KMeans(n_clusters=k, random_state=42, n_init=10)`, the trial estimator of
`determine_optimal_clusters` (lines 103–107). -/
def trialKMeansSpec (k : ℕ) : KMeansSpec := ⟨k, some 42, some 10, none, none, none, false⟩

/-- Spec of `MiniBatchKMeans(n_clusters=k, random_state=42, batch_size=1000)`, the
large-sample trial estimator (lines 97–101). -/
def trialMiniBatchSpec (k : ℕ) : KMeansSpec := ⟨k, some 42, none, some 1000, none, none, true⟩

/-- Spec of `KMeans(n_clusters=k, random_state=42, n_init=10, algorithm='elkan')`, the
main estimator of `cluster_vectors` (lines 260–265). -/
def mainKMeansSpec (k : ℕ) : KMeansSpec := ⟨k, some 42, some 10, none, none, some "elkan", false⟩

/-- Spec of `MiniBatchKMeans(n_clusters=k, random_state=42, batch_size=1000,
max_iter=100)`, the large-data estimator of `cluster_vectors`
(lines 251–256). -/
def mainMiniBatchSpec (k : ℕ) : KMeansSpec := ⟨k, some 42, none, some 1000, some 100, none, true⟩

/-- Spec of `KMeans(n_clusters=fallback_n_clusters)`, the retry estimator of
`cluster_vectors` (line 314) — constructed with *no* `random_state`. -/
def retryKMeansSpec (k : ℕ) : KMeansSpec := ⟨k, none, none, none, none, none, false⟩

/-- The scikit-learn collaborator: `available` models whether the
`import sklearn` succeeds; `pca` models `PCA(n_components=100).fit_transform`;
`fitPredict` models `fit_predict` returning the labels and
`cluster_centers_` (its `ℕ` argument is the ambient global-RNG state, which a
faithful model consults only when `randomState = none`); `silhouette` models
`silhouette_score`; `subsample` models the `np.random.choice` per-cluster
subsampling block. Each fallible call returns `Except String`. -/
structure SklearnEnv where
  available : Bool
  pca : List (List ℚ) → Except String (List (List ℚ))
  fitPredict : KMeansSpec → ℕ → List (List ℚ) → Except String (List ℕ × List (List ℚ))
  silhouette : List (List ℚ) → List ℕ → Except String ℚ
  subsample : List ℕ → Except String (List ℕ)

/-- The scikit-learn contract assumed of a faithful environment: PCA preserves
the number of rows; a successful `fit_predict` returns one label per row, each
label below `n_clusters`, and exactly `n_clusters` centers. -/
def validEnv (env : SklearnEnv) : Prop :=
  (∀ m r, env.pca m = .ok r → r.length = m.length) ∧
  (∀ spec rng m labels centers,
    env.fitPredict spec rng m = .ok (labels, centers) →
      labels.length = m.length ∧ (∀ l ∈ labels, l < spec.nClusters) ∧
      centers.length = spec.nClusters)

/-- State of the silhouette trial loop of `determine_optimal_clusters`:
`max_score` (initialised to `-1`), `best_n_clusters` (initialised to
`min_clusters = 3`) and the last value assigned to the Python variable `score`
(which leaks across iterations; `none` before the first assignment). -/
structure TrialState where
  maxScore : ℚ
  best : ℕ
  prevScore : Option ℚ
deriving DecidableEq

/-- Embedding of `np.linspace(0, n-1, count, dtype=int)`: evenly spaced indices, truncated
to integers. -/
def linspaceIdx (n count : ℕ) : List ℕ :=
  (List.range count).map (fun i => i * (n - 1) / (count - 1))

/-- The protected silhouette computation of one trial (lines 114–133): with
more than 5000 sample rows, subsample per cluster and either score the
subsample or (fewer than 2 chosen indices) fall back to the stale Python
`score` variable — a `NameError` if it was never assigned; otherwise score the
full sample. Every failure here is caught by the `except` at lines 140–142. -/
def trialScore (env : SklearnEnv) (sample : List (List ℚ)) (st : TrialState)
    (labels : List ℕ) : Except String ℚ :=
  if sample.length > 5000 then
    match env.subsample labels with
    | .error e => .error e
    | .ok idxs =>
      if idxs.length ≥ 2 then
        env.silhouette (idxs.map (fun i => sample.getD i []))
          (idxs.map (fun i => labels.getD i 0))
      else
        match st.prevScore with
        | some s => .ok s
        | none => .error "NameError: name score is not defined"
  else env.silhouette sample labels

/-- The caught part of one trial iteration (lines 111–142): with fewer than 2
distinct labels nothing happens; otherwise the silhouette score is computed
(failures caught, `continue`) and the best state updated when it improves. -/
def trialUpdate (env : SklearnEnv) (sample : List (List ℚ)) (st : TrialState)
    (k : ℕ) (labels : List ℕ) : TrialState :=
  if (pyDedup labels).length > 1 then
    match trialScore env sample st labels with
    | .error _ => st
    | .ok s =>
      if s > st.maxScore then ⟨s, k, some s⟩ else ⟨st.maxScore, st.best, some s⟩
  else st

/-- One iteration of the trial loop (lines 91–142): pick the estimator, run
`fit_predict` (NOT inside any `try` — its exception propagates), then perform
the caught update. -/
def trialStep (env : SklearnEnv) (rng : ℕ) (sample : List (List ℚ))
    (st : TrialState) (k : ℕ) : Except String TrialState :=
  match env.fitPredict
      (if sample.length > 10000 then trialMiniBatchSpec k else trialKMeansSpec k)
      rng sample with
  | .error e => .error e
  | .ok fr => .ok (trialUpdate env sample st k fr.1)

/-- Embedding of `determine_optimal_clusters` (lines 18–150) at its default
arguments (`min_clusters=3`, `max_clusters=40`, `min_force_clusters=30`,
`force_min_threshold=400`): import failure returns the default 5; `N < 20`
returns `clamp(N//2, 2, 5)`; `N ≥ 400` returns `clamp(N//50, 30, 40)`;
otherwise PCA-reduce when the dimension exceeds 100 (exceptions propagate),
evenly subsample above 1000 rows, run silhouette trials over
`range(3, min(40, N//5)+1, max(1, (min(40, N//5)-3)//10))` stopping at the
first candidate `≥ len(sample)`, and return the best-scoring candidate — or
the empirical `clamp(int(sqrt(N/2)), 5, 30)` when no trial ever scored. -/
def determine_optimal_clusters (env : SklearnEnv) (rng : ℕ)
    (vectors : List (List ℚ)) : Except String ℕ :=
  if env.available = false then .ok 5
  else
    let N := vectors.length
    if N < 20 then .ok (max 2 (min 5 (N / 2)))
    else if N ≥ 400 then .ok (min 40 (max 30 (N / 50)))
    else
      match (if (vectors.getD 0 []).length > 100 then env.pca vectors
             else .ok vectors) with
      | .error e => .error e
      | .ok reduced =>
        let sample := if N > 1000 then
            (linspaceIdx N 1000).map (fun i => reduced.getD i [])
          else reduced
        let maxAttempt := min 40 (N / 5)
        let step := max 1 ((maxAttempt - 3) / 10)
        let cands := (upRange 3 (maxAttempt + 1) step).takeWhile
          (fun k => k < sample.length)
        match cands.foldlM (trialStep env rng sample) ⟨-1, 3, none⟩ with
        | .error e => .error e
        | .ok st =>
          if st.best = 3 ∧ st.maxScore = -1 then
            .ok (min 30 (max 5 (Nat.sqrt (N / 2))))
          else .ok st.best

/-- Embedding of `preprocess_vectors` (lines 152–180): optional PCA reduction
when the dimension exceeds `pca_components`; a PCA failure is caught and the
original vectors returned. -/
def preprocess_vectors (env : SklearnEnv) (vectors : List (List ℚ))
    (usePca : Bool) (pcaComponents : ℕ) : List (List ℚ) :=
  if vectors.length = 0 then vectors
  else if usePca ∧ (vectors.getD 0 []).length > pcaComponents then
    match env.pca vectors with
    | .ok r => r
    | .error _ => vectors
  else vectors

/-- An input record of `cluster_vectors`: `{'id': …, 'vector': …}`. -/
structure MemoryVector where
  id : String
  vector : List ℚ
deriving DecidableEq

/-- One output cluster of `cluster_vectors`: the centroid and the ids of the
member points. -/
structure OutCluster where
  center : List ℚ
  points : List String
deriving DecidableEq

/-- The result dict of `cluster_vectors`: `centroids` (the cluster list),
`topics`, and the `error` key (`none` when absent). -/
structure ClusterResult where
  centroids : List OutCluster
  topics : List String
  error : Option String
deriving DecidableEq

/-- The member ids of cluster `i`:
`[ids[idx] for idx in np.where(labels == i)[0]]`. -/
def clusterPoints (ids : List String) (labels : List ℕ) (i : ℕ) : List String :=
  ((ids.zip labels).filter (fun p => p.2 == i)).map Prod.fst

/-- One iteration of the result-organisation loop: collect the member ids of
cluster `i`, skip it when empty, else emit it with `centroids[i]` (an
out-of-range index raises, propagating to the enclosing `except`). -/
def organizeStep (ids : List String) (labels : List ℕ) (centers : List (List ℚ))
    (acc : List OutCluster) (i : ℕ) : Except String (List OutCluster) :=
  if clusterPoints ids labels i = [] then .ok acc
  else
    match centers[i]? with
    | some c => .ok (acc ++ [⟨c, clusterPoints ids labels i⟩])
    | none => .error "IndexError: index out of range"

/-- The result-organisation loop shared by the primary path (lines 272–289)
and the retry path (lines 318–327): for each `i in range(k)` collect the
member ids, skip empty clusters, and emit the cluster with `centroids[i]`. -/
def organizeClusters (ids : List String) (labels : List ℕ) (k : ℕ)
    (centers : List (List ℚ)) : Except String (List OutCluster) :=
  (List.range k).foldlM (organizeStep ids labels centers) []

/-- Embedding of the topic-name list comprehension and its retry analogue. -/
def topicNames (pre : String) (n : ℕ) : List String :=
  (List.range n).map (fun i => pre ++ toString i)

/-- The cluster-count resolution of `cluster_vectors` (lines 234–246): with
`use_optimal_clusters` the automatic count is computed (exceptions propagate)
and harmonically averaged with a caller hint when present
(`int((2*n*opt)/(n+opt))`); otherwise the hint, or `min(5, len(processed))`. -/
def resolveK (env : SklearnEnv) (rng : ℕ) (processed : List (List ℚ))
    (useOpt : Bool) (hint : Option ℕ) : Except String ℕ :=
  if useOpt then
    match determine_optimal_clusters env rng processed with
    | .error e => .error e
    | .ok opt =>
      match hint with
      | none => .ok opt
      | some n => .ok ((2 * n * opt) / (n + opt))
  else
    match hint with
    | some n => .ok n
    | none => .ok (min 5 processed.length)

/-- Embedding of `vector_dim = len(vectors[0]) if vector_count > 0 else 0` (line 217). -/
def vectorDim (vectors : List (List ℚ)) : ℕ :=
  if vectors.length > 0 then (vectors.getD 0 []).length else 0

/-- The vectors actually clustered (lines 228–232): PCA-preprocessed when
`use_pca` and the dimension exceeds 100, else the raw vectors. -/
def processedVectors (env : SklearnEnv) (mv : List MemoryVector) (usePca : Bool) :
    List (List ℚ) :=
  if usePca ∧ vectorDim (mv.map (·.vector)) > 100 then
    preprocess_vectors env (mv.map (·.vector)) true 100
  else mv.map (·.vector)

/-- The primary attempt of `cluster_vectors` (lines 200–300): import failure
returns an error dict (no retry), an empty input returns an empty success
dict, otherwise resolve `k`, fit, and organise; any exception becomes
`Except.error` and triggers the retry. -/
def primaryCluster (env : SklearnEnv) (rng : ℕ) (mv : List MemoryVector)
    (useOpt : Bool) (hint : Option ℕ) (usePca : Bool) : Except String ClusterResult :=
  if env.available = false then .ok ⟨[], [], some "scikit-learn库不可用"⟩
  else if mv.length = 0 then .ok ⟨[], [], none⟩
  else
    match resolveK env rng (processedVectors env mv usePca) useOpt hint with
    | .error e => .error e
    | .ok k =>
      match env.fitPredict
          (if mv.length > 10000 then mainMiniBatchSpec k else mainKMeansSpec k)
          rng (processedVectors env mv usePca) with
      | .error e => .error e
      | .ok fr =>
        match organizeClusters (mv.map (·.id)) fr.1 k fr.2 with
        | .error e => .error e
        | .ok clusters =>
          .ok ⟨clusters, topicNames "主题 " clusters.length, none⟩

/-- The retry attempt (lines 304–335): fixed `min(5, N)` clusters, a `KMeans`
constructed *without* `random_state` (see `retryKMeansSpec`), then the same
organisation loop. -/
def retryCluster (env : SklearnEnv) (rng : ℕ) (mv : List MemoryVector) :
    Except String ClusterResult :=
  match env.fitPredict (retryKMeansSpec (min 5 mv.length)) rng (mv.map (·.vector)) with
  | .error e => .error e
  | .ok fr =>
    match organizeClusters (mv.map (·.id)) fr.1 (min 5 mv.length) fr.2 with
    | .error e => .error e
    | .ok clusters =>
      .ok ⟨clusters, topicNames "备用主题 " clusters.length, none⟩

/-- Embedding of `cluster_vectors` (lines 182–344): the primary attempt, the
simplified retry on failure, and the error dict carrying both causes when the
retry also fails. -/
def cluster_vectors (env : SklearnEnv) (rng : ℕ) (mv : List MemoryVector)
    (useOpt : Bool) (hint : Option ℕ) (usePca : Bool) : ClusterResult :=
  match primaryCluster env rng mv useOpt hint usePca with
  | .ok r => r
  | .error e1 =>
    match retryCluster env rng mv with
    | .ok r => r
    | .error e2 => ⟨[], [], some ("聚类算法错误: " ++ e1 ++ ", 备用方法错误: " ++ e2)⟩

/-! ### Partition machinery for the organisation loop -/

theorem flatten_filter_cons {α : Type} (p : α × ℕ) (t : List (α × ℕ)) :
    ∀ (is : List ℕ), is.Nodup →
      ((is.map (fun i => (p :: t).filter (fun q => q.2 == i))).flatten).Perm
        ((if p.2 ∈ is then [p] else []) ++
          (is.map (fun i => t.filter (fun q => q.2 == i))).flatten) := by
  intro is
  induction is with
  | nil => simp
  | cons i is ih =>
    intro hnd
    have hnd' : is.Nodup := hnd.of_cons
    have hni : i ∉ is := by
      rcases List.nodup_cons.mp hnd with ⟨hni, _⟩
      exact hni
    rw [List.map_cons, List.flatten_cons, List.map_cons, List.flatten_cons]
    by_cases hp2 : p.2 = i
    · have hfc : (p :: t).filter (fun q => q.2 == i) =
          p :: t.filter (fun q => q.2 == i) := by
        rw [List.filter_cons_of_pos (by simp [hp2])]
      rw [hfc]
      have hrest : is.map (fun j => (p :: t).filter (fun q => q.2 == j)) =
          is.map (fun j => t.filter (fun q => q.2 == j)) := by
        apply List.map_congr_left
        intro j hj
        have hji : p.2 ≠ j := by
          rw [hp2]
          intro he
          exact hni (he ▸ hj)
        rw [List.filter_cons_of_neg (by simp [hji])]
      rw [hrest, if_pos (by simp [hp2])]
      rfl
    · have hfc : (p :: t).filter (fun q => q.2 == i) =
          t.filter (fun q => q.2 == i) := by
        rw [List.filter_cons_of_neg (by simp [hp2])]
      rw [hfc]
      have hperm := ih hnd'
      have happ := hperm.append_left (t.filter (fun q => q.2 == i))
      refine happ.trans ?_
      by_cases hmem : p.2 ∈ is
      · rw [if_pos hmem, if_pos (by simp [hmem])]
        exact List.perm_middle
      · rw [if_neg hmem, if_neg (by simp [hp2, hmem])]
        rfl

/-- Grouping the pairs of a list by their label (all labels below `k`) and
concatenating the groups permutes the list. -/
theorem flatten_filter_groups {α : Type} (l : List (α × ℕ)) (k : ℕ)
    (h : ∀ p ∈ l, p.2 < k) :
    (((List.range k).map (fun i => l.filter (fun p => p.2 == i))).flatten).Perm l := by
  induction l with
  | nil => simp
  | cons p t ih =>
    have hp : p.2 ∈ List.range k := List.mem_range.mpr (h p (by simp))
    have hstep := flatten_filter_cons p t (List.range k) (List.nodup_range k)
    rw [if_pos hp] at hstep
    refine hstep.trans ?_
    have ht := ih (fun q hq => h q (by simp [hq]))
    exact ht.cons p

theorem organizeStep_fold (ids : List String) (labels : List ℕ)
    (centers : List (List ℚ)) :
    ∀ (is : List ℕ) (acc : List OutCluster), (∀ i ∈ is, i < centers.length) →
      is.foldlM (organizeStep ids labels centers) acc =
        .ok (acc ++ is.filterMap (fun i =>
          if clusterPoints ids labels i = [] then none
          else some ⟨centers.getD i [], clusterPoints ids labels i⟩)) := by
  intro is
  induction is with
  | nil =>
    intro acc _
    rw [List.foldlM_nil, List.filterMap_nil, List.append_nil]
    rfl
  | cons i is ih =>
    intro acc h
    rw [List.foldlM_cons]
    have hi : i < centers.length := h i (by simp)
    have hgetD : centers.getD i ([] : List ℚ) = centers[i] :=
      List.getD_eq_getElem centers [] hi
    by_cases hpts : clusterPoints ids labels i = []
    · have hstep : organizeStep ids labels centers acc i = .ok acc := by
        unfold organizeStep
        rw [if_pos hpts]
      rw [hstep]
      show is.foldlM (organizeStep ids labels centers) acc = _
      rw [ih acc (fun j hj => h j (by simp [hj]))]
      rw [List.filterMap_cons]
      simp [hpts]
    · have hstep : organizeStep ids labels centers acc i =
          .ok (acc ++ [⟨centers.getD i [], clusterPoints ids labels i⟩]) := by
        unfold organizeStep
        rw [if_neg hpts, List.getElem?_eq_getElem hi, hgetD]
      rw [hstep]
      show is.foldlM (organizeStep ids labels centers) _ = _
      rw [ih _ (fun j hj => h j (by simp [hj]))]
      rw [List.filterMap_cons]
      rw [if_neg hpts]
      simp

theorem flatten_points_filterMap (ids : List String) (labels : List ℕ)
    (centers : List (List ℚ)) :
    ∀ (is : List ℕ),
      (((is.filterMap (fun i =>
        if clusterPoints ids labels i = [] then none
        else some (⟨centers.getD i [], clusterPoints ids labels i⟩ : OutCluster))).map
          OutCluster.points).flatten) =
      ((is.map (fun i => clusterPoints ids labels i)).flatten) := by
  intro is
  induction is with
  | nil => rfl
  | cons i is ih =>
    rw [List.filterMap_cons, List.map_cons, List.flatten_cons]
    by_cases hpts : clusterPoints ids labels i = []
    · rw [if_pos hpts, hpts, ih]
      rfl
    · rw [if_neg hpts, List.map_cons, List.flatten_cons, ih]

/-- A successful organisation pass over labels bounded by `k` (the scikit-learn
contract) partitions the ids: the concatenated member lists permute the id
list, no emitted cluster is empty, and at most `k` clusters are emitted. -/
theorem organizeClusters_spec (ids : List String) (labels : List ℕ) (k : ℕ)
    (centers : List (List ℚ)) (hlab : labels.length = ids.length)
    (hlt : ∀ l ∈ labels, l < k) (hc : k ≤ centers.length) :
    ∃ cs, organizeClusters ids labels k centers = .ok cs ∧
      ((cs.map OutCluster.points).flatten).Perm ids ∧
      (∀ c ∈ cs, c.points ≠ []) ∧ cs.length ≤ k := by
  unfold organizeClusters
  rw [organizeStep_fold ids labels centers (List.range k) []
    (fun i hi => lt_of_lt_of_le (List.mem_range.mp hi) hc)]
  rw [List.nil_append]
  refine ⟨_, rfl, ?_, ?_, ?_⟩
  · rw [flatten_points_filterMap]
    have hmm : (List.range k).map (fun i => clusterPoints ids labels i) =
        ((List.range k).map (fun i => (ids.zip labels).filter (fun p => p.2 == i))).map
          (List.map Prod.fst) := by
      rw [List.map_map]
      rfl
    rw [hmm, ← List.map_flatten]
    have hperm := flatten_filter_groups (ids.zip labels) k
      (fun p hp => hlt p.2 (List.of_mem_zip hp).2)
    have hmapped := hperm.map Prod.fst
    rwa [List.map_fst_zip ids labels (le_of_eq hlab.symm)] at hmapped
  · intro c hc'
    rcases List.mem_filterMap.mp hc' with ⟨i, _, hsome⟩
    by_cases hpts : clusterPoints ids labels i = []
    · rw [if_pos hpts] at hsome
      exact Option.noConfusion hsome
    · rw [if_neg hpts] at hsome
      have := Option.some.inj hsome
      rw [← this]
      exact hpts
  · calc ((List.range k).filterMap _).length ≤ (List.range k).length :=
        List.length_filterMap_le _ _
      _ = k := List.length_range k

theorem preprocess_vectors_length (env : SklearnEnv) (vectors : List (List ℚ))
    (usePca : Bool) (pc : ℕ)
    (hpca : ∀ m r, env.pca m = .ok r → r.length = m.length) :
    (preprocess_vectors env vectors usePca pc).length = vectors.length := by
  unfold preprocess_vectors
  split
  · rfl
  · split
    · cases hm : env.pca vectors with
      | ok r => exact hpca _ _ hm
      | error e => rfl
    · rfl

/-- The number of rows fed to the estimator equals the number of input records
whenever PCA preserves row count. -/
theorem processedVectors_length (env : SklearnEnv) (mv : List MemoryVector)
    (usePca : Bool) (hpca : ∀ m r, env.pca m = .ok r → r.length = m.length) :
    (processedVectors env mv usePca).length = mv.length := by
  unfold processedVectors
  split
  · rw [preprocess_vectors_length env _ _ _ hpca]
    simp
  · simp

/-- A successful primary attempt with a success dict satisfies the partition
properties, with `k` the resolved cluster count. -/
theorem primaryCluster_ok (env : SklearnEnv) (rng : ℕ) (mv : List MemoryVector)
    (useOpt : Bool) (hint : Option ℕ) (usePca : Bool) (r : ClusterResult)
    (henv : validEnv env)
    (hp : primaryCluster env rng mv useOpt hint usePca = .ok r)
    (herr : r.error = none) :
    ((r.centroids.map OutCluster.points).flatten).Perm (mv.map (·.id)) ∧
    (∀ c ∈ r.centroids, c.points ≠ []) ∧
    (∃ k, r.centroids.length ≤ k ∧
      (resolveK env rng (processedVectors env mv usePca) useOpt hint = .ok k ∨
        k = min 5 mv.length)) := by
  unfold primaryCluster at hp
  cases hav : env.available with
  | false =>
    rw [hav, if_pos rfl] at hp
    have hr := (Except.ok.inj hp).symm
    rw [hr] at herr
    exact absurd herr (by simp)
  | true =>
    rw [hav, if_neg (by simp)] at hp
    by_cases hmv : mv.length = 0
    · rw [if_pos hmv] at hp
      have hr := (Except.ok.inj hp).symm
      have hmveq := List.length_eq_zero.mp hmv
      subst hmveq
      rw [hr]
      refine ⟨by simp, by simp, ⟨0, by simp, Or.inr (by simp)⟩⟩
    · rw [if_neg hmv] at hp
      cases hres : resolveK env rng (processedVectors env mv usePca) useOpt hint with
      | error e =>
        rw [hres] at hp
        exact absurd hp (by simp)
      | ok k =>
        rw [hres] at hp
        dsimp only at hp
        cases hf : env.fitPredict
            (if mv.length > 10000 then mainMiniBatchSpec k else mainKMeansSpec k)
            rng (processedVectors env mv usePca) with
        | error e =>
          rw [hf] at hp
          exact absurd hp (by simp)
        | ok fr =>
          obtain ⟨labels, centers⟩ := fr
          rw [hf] at hp
          dsimp only at hp
          cases ho : organizeClusters (mv.map (·.id)) labels k centers with
          | error e =>
            rw [ho] at hp
            exact absurd hp (by simp)
          | ok cs =>
            rw [ho] at hp
            dsimp only at hp
            have hr := (Except.ok.inj hp).symm
            have hcontract := henv.2 _ rng _ labels centers hf
            have hspec :
                ((if mv.length > 10000 then mainMiniBatchSpec k
                  else mainKMeansSpec k)).nClusters = k := by
              split <;> rfl
            rw [hspec] at hcontract
            have hlab : labels.length = (mv.map (·.id)).length := by
              rw [hcontract.1, processedVectors_length env mv usePca henv.1,
                List.length_map]
            obtain ⟨cs', ho', hperm, hne, hlen⟩ :=
              organizeClusters_spec (mv.map (·.id)) labels k centers hlab
                hcontract.2.1 (le_of_eq hcontract.2.2.symm)
            rw [ho] at ho'
            have hcs := Except.ok.inj ho'
            subst hcs
            rw [hr]
            exact ⟨hperm, hne, ⟨k, hlen, Or.inl rfl⟩⟩

/-- A successful retry attempt satisfies the partition properties with the
fixed fallback cluster count `min 5 N`. -/
theorem retryCluster_ok (env : SklearnEnv) (rng : ℕ) (mv : List MemoryVector)
    (r : ClusterResult) (henv : validEnv env)
    (hrt : retryCluster env rng mv = .ok r) :
    ((r.centroids.map OutCluster.points).flatten).Perm (mv.map (·.id)) ∧
    (∀ c ∈ r.centroids, c.points ≠ []) ∧
    r.centroids.length ≤ min 5 mv.length := by
  unfold retryCluster at hrt
  cases hf : env.fitPredict (retryKMeansSpec (min 5 mv.length)) rng
      (mv.map (·.vector)) with
  | error e =>
    rw [hf] at hrt
    exact absurd hrt (by simp)
  | ok fr =>
    obtain ⟨labels, centers⟩ := fr
    rw [hf] at hrt
    dsimp only at hrt
    cases ho : organizeClusters (mv.map (·.id)) labels (min 5 mv.length) centers with
    | error e =>
      rw [ho] at hrt
      exact absurd hrt (by simp)
    | ok cs =>
      rw [ho] at hrt
      dsimp only at hrt
      have hr := (Except.ok.inj hrt).symm
      have hcontract := henv.2 _ rng _ labels centers hf
      have hlab : labels.length = (mv.map (·.id)).length := by
        rw [hcontract.1]
        simp
      obtain ⟨cs', ho', hperm, hne, hlen⟩ :=
        organizeClusters_spec (mv.map (·.id)) labels (min 5 mv.length) centers hlab
          hcontract.2.1 (le_of_eq hcontract.2.2.symm)
      rw [ho] at ho'
      have hcs := Except.ok.inj ho'
      subst hcs
      rw [hr]
      exact ⟨hperm, hne, hlen⟩

/-- C1: for every input and configuration, under the scikit-learn contract,
whenever `cluster_vectors` returns a success dict (no `error` key) its clusters
partition the input ids exactly — the concatenated member lists permute the
input id list (no id missing, no id duplicated), empty clusters are dropped,
every emitted cluster is non-empty, and at most `k` clusters are emitted where
`k` is the resolved cluster count (the fallback `min 5 N` on the retry path). -/
theorem cluster_vectors_partition (env : SklearnEnv) (rng : ℕ)
    (mv : List MemoryVector) (useOpt : Bool) (hint : Option ℕ) (usePca : Bool)
    (henv : validEnv env)
    (hok : (cluster_vectors env rng mv useOpt hint usePca).error = none) :
    (((cluster_vectors env rng mv useOpt hint usePca).centroids.map
        OutCluster.points).flatten).Perm (mv.map (·.id)) ∧
    (∀ c ∈ (cluster_vectors env rng mv useOpt hint usePca).centroids,
      c.points ≠ []) ∧
    (∃ k, (cluster_vectors env rng mv useOpt hint usePca).centroids.length ≤ k ∧
      (resolveK env rng (processedVectors env mv usePca) useOpt hint = .ok k ∨
        k = min 5 mv.length)) := by
  cases hp : primaryCluster env rng mv useOpt hint usePca with
  | ok r =>
    have hcv : cluster_vectors env rng mv useOpt hint usePca = r := by
      unfold cluster_vectors
      rw [hp]
    rw [hcv] at hok ⊢
    exact primaryCluster_ok env rng mv useOpt hint usePca r henv hp hok
  | error e1 =>
    cases hrt : retryCluster env rng mv with
    | ok r =>
      have hcv : cluster_vectors env rng mv useOpt hint usePca = r := by
        unfold cluster_vectors
        rw [hp, hrt]
      rw [hcv] at hok ⊢
      obtain ⟨h1, h2, h3⟩ := retryCluster_ok env rng mv r henv hrt
      exact ⟨h1, h2, ⟨min 5 mv.length, h3, Or.inr rfl⟩⟩
    | error e2 =>
      have hcv : cluster_vectors env rng mv useOpt hint usePca =
          ⟨[], [], some ("聚类算法错误: " ++ e1 ++ ", 备用方法错误: " ++ e2)⟩ := by
        unfold cluster_vectors
        rw [hp, hrt]
      rw [hcv] at hok
      exact absurd hok (by simp)

/-- A simple faithful scikit-learn model used to instantiate witnesses: PCA is
the identity, `fit_predict` rejects `n_clusters = 0` (as sklearn does) and
otherwise labels every row 0 and returns `n_clusters` centers. -/
def stubFitPredict : KMeansSpec → ℕ → List (List ℚ) →
    Except String (List ℕ × List (List ℚ)) :=
  fun spec _ m =>
    if spec.nClusters = 0 then .error "ValueError: n_clusters should be >= 1"
    else .ok (m.map (fun _ => 0), List.replicate spec.nClusters [])

/-- Witness environment built from `stubFitPredict`. -/
def stubEnv : SklearnEnv :=
  ⟨true, fun m => .ok m, stubFitPredict, fun _ _ => .ok 0, fun _ => .ok []⟩

theorem stubEnv_valid : validEnv stubEnv := by
  constructor
  · intro m r h
    have := Except.ok.inj h
    rw [← this]
  · intro spec rng m labels centers h
    have h' : stubFitPredict spec rng m = .ok (labels, centers) := h
    unfold stubFitPredict at h'
    by_cases h0 : spec.nClusters = 0
    · rw [if_pos h0] at h'
      exact absurd h' (by simp)
    · rw [if_neg h0] at h'
      have hinj := Except.ok.inj h'
      have h1 : m.map (fun _ => 0) = labels := congrArg Prod.fst hinj
      have h2 : List.replicate spec.nClusters ([] : List ℚ) = centers :=
        congrArg Prod.snd hinj
      refine ⟨by rw [← h1]; simp, ?_, by rw [← h2]; simp⟩
      intro l hl
      rw [← h1] at hl
      rcases List.mem_map.mp hl with ⟨_, _, rfl⟩
      exact Nat.pos_of_ne_zero h0

/-- Witness for C1 at a concrete two-record input with a caller-requested
`k = 2`. -/
theorem cluster_vectors_partition_witness :
    (validEnv stubEnv ∧
      (cluster_vectors stubEnv 0 [⟨"a", [1]⟩, ⟨"b", [2]⟩] false (some 2)
        false).error = none) ∧
    (((cluster_vectors stubEnv 0 [⟨"a", [1]⟩, ⟨"b", [2]⟩] false (some 2)
        false).centroids.map OutCluster.points).flatten).Perm
      (([(⟨"a", [1]⟩ : MemoryVector), ⟨"b", [2]⟩]).map (·.id)) := by
  have herr : (cluster_vectors stubEnv 0 [⟨"a", [1]⟩, ⟨"b", [2]⟩] false (some 2)
      false).error = none := by decide
  exact ⟨⟨stubEnv_valid, herr⟩,
    (cluster_vectors_partition stubEnv 0 _ false (some 2) false stubEnv_valid
      herr).1⟩

/-- The effective seed of an estimator run: the fixed `random_state` when one
was passed, else the ambient global-RNG state — sklearn's documented behaviour
for `random_state=None`. -/
def seedOf (spec : KMeansSpec) (rng : ℕ) : ℕ :=
  match spec.randomState with
  | some s => s
  | none => rng

/-- A faithful deterministic-in-its-seed KMeans model: rejects
`n_clusters = 0` or more clusters than rows (as sklearn does), otherwise
labels row `i` with `(i + seed) % k` where the seed is `seedOf` — so the
result depends on the ambient RNG exactly when `random_state` was omitted. -/
def demoFitPredict (spec : KMeansSpec) (rng : ℕ) (m : List (List ℚ)) :
    Except String (List ℕ × List (List ℚ)) :=
  if spec.nClusters = 0 ∨ m.length < spec.nClusters then
    .error "ValueError: n_clusters should be >= 1 and <= n_samples"
  else
    .ok ((List.range m.length).map (fun i => (i + seedOf spec rng) % spec.nClusters),
      List.replicate spec.nClusters [0])

/-- Environment for the determinism counterexample. -/
def demoEnv : SklearnEnv :=
  ⟨true, fun m => .ok m, demoFitPredict, fun _ _ => .ok 0, fun _ => .ok []⟩

/-- C2: the retry path of `cluster_vectors` is not deterministic. The retry
constructs `KMeans(n_clusters=fallback_n_clusters)` with *no* `random_state`
(line 314), unlike the seeded primary estimator, so its labeling depends on
the ambient global RNG: on the concrete input
`[{id:a, vector:[1,0]}, {id:b, vector:[0,1]}]` with hint `n_clusters = 0` and
`use_optimal_clusters = True` (the harmonic mean resolves to 0, the primary
fit raises, and the retry path runs), two invocations that differ only in the
ambient RNG state return different cluster assignments. -/
theorem cluster_vectors_retry_nondeterministic :
    (retryKMeansSpec 2).randomState = none ∧
    (mainKMeansSpec 2).randomState = some 42 ∧
    cluster_vectors demoEnv 0 [⟨"a", [1, 0]⟩, ⟨"b", [0, 1]⟩] true (some 0) true ≠
      cluster_vectors demoEnv 1 [⟨"a", [1, 0]⟩, ⟨"b", [0, 1]⟩] true (some 0) true := by
  refine ⟨rfl, rfl, ?_⟩
  decide

/-- Environment in which `PCA(n_components=100).fit_transform` raises — as
sklearn's PCA does whenever `n_components > min(n_samples, n_features)`, e.g.
on a 50×200 matrix. -/
def pcaFailEnv : SklearnEnv :=
  ⟨true,
    fun _ => .error "ValueError: n_components=100 must be between 0 and min(n_samples, n_features)",
    stubFitPredict, fun _ _ => .ok 0, fun _ => .ok []⟩

set_option maxRecDepth 4096 in
/-- C3 counterexample: `determine_optimal_clusters` *can* raise. On 50 vectors
of dimension 200 (mid tier, dimension > 100) the PCA call at line 72 — which
is outside every `try` block — fails for 50 < 100 samples and the exception
propagates out of the selector instead of being recovered locally. -/
theorem determine_optimal_clusters_raises :
    determine_optimal_clusters pcaFailEnv 0
      (List.replicate 50 (List.replicate 200 (0 : ℚ))) =
      .error "ValueError: n_components=100 must be between 0 and min(n_samples, n_features)" := by
  rfl

theorem trialStep_ok (env : SklearnEnv) (rng : ℕ) (sample : List (List ℚ))
    (hfit : ∀ spec rng2 m, ∃ fr, env.fitPredict spec rng2 m = .ok fr)
    (st : TrialState) (k : ℕ) :
    ∃ st', trialStep env rng sample st k = .ok st' := by
  obtain ⟨fr, hfr⟩ := hfit
    (if sample.length > 10000 then trialMiniBatchSpec k else trialKMeansSpec k)
    rng sample
  unfold trialStep
  rw [hfr]
  exact ⟨_, rfl⟩

theorem foldlM_ok {σ α : Type} (f : σ → α → Except String σ) (l : List α)
    (h : ∀ st a, a ∈ l → ∃ st', f st a = .ok st') :
    ∀ init, ∃ fin, l.foldlM f init = .ok fin := by
  induction l with
  | nil =>
    intro init
    exact ⟨init, by rw [List.foldlM_nil]; rfl⟩
  | cons a l ih =>
    intro init
    obtain ⟨st1, h1⟩ := h init a (by simp)
    obtain ⟨fin, hfin⟩ := ih (fun st b hb => h st b (by simp [hb])) st1
    refine ⟨fin, ?_⟩
    rw [List.foldlM_cons, h1]
    exact hfin

/-- C3 amended: the selector never raises *through its own fallbacks* — when
the library import fails it returns the default 5, and every silhouette-trial
failure is caught (with the empirical formula used when no trial scored) —
but this totality holds only when the unprotected external calls (PCA, the
trial `fit_predict`) succeed; their exceptions propagate (see the
counterexample). -/
theorem determine_optimal_clusters_total (env : SklearnEnv) (rng : ℕ)
    (vectors : List (List ℚ))
    (hpca : ∀ m, ∃ r, env.pca m = .ok r)
    (hfit : ∀ spec rng2 m, ∃ fr, env.fitPredict spec rng2 m = .ok fr) :
    ∃ k, determine_optimal_clusters env rng vectors = .ok k := by
  unfold determine_optimal_clusters
  cases hav : env.available with
  | false => exact ⟨5, by rw [if_pos rfl]⟩
  | true =>
    rw [if_neg (by simp)]
    by_cases h20 : vectors.length < 20
    · rw [if_pos h20]
      exact ⟨_, rfl⟩
    · rw [if_neg h20]
      by_cases h400 : vectors.length ≥ 400
      · rw [if_pos h400]
        exact ⟨_, rfl⟩
      · rw [if_neg h400]
        cases hp : (if (vectors.getD 0 []).length > 100 then env.pca vectors
            else .ok vectors) with
        | error e =>
          exfalso
          by_cases hd : (vectors.getD 0 []).length > 100
          · rw [if_pos hd] at hp
            obtain ⟨r, hr⟩ := hpca vectors
            rw [hr] at hp
            exact Except.noConfusion hp
          · rw [if_neg hd] at hp
            exact Except.noConfusion hp
        | ok reduced =>
          dsimp only
          obtain ⟨st, hst⟩ := foldlM_ok _ _
            (fun st k _ => trialStep_ok env rng _ hfit st k) ⟨-1, 3, none⟩
          rw [hst]
          dsimp only
          split
          · exact ⟨_, rfl⟩
          · exact ⟨_, rfl⟩

/-- An environment whose PCA and fit always succeed, for the C3 witness. -/
def totalEnv : SklearnEnv :=
  ⟨true, fun m => .ok m,
    fun spec _ m => .ok (m.map (fun _ => 0), List.replicate spec.nClusters []),
    fun _ _ => .ok 0, fun _ => .ok []⟩

/-- Witness for the amended C3 with always-succeeding PCA and fit. -/
theorem determine_optimal_clusters_total_witness :
    ((∀ m, ∃ r, totalEnv.pca m = .ok r) ∧
      (∀ spec rng2 m, ∃ fr, totalEnv.fitPredict spec rng2 m = .ok fr)) ∧
    ∃ k, determine_optimal_clusters totalEnv 0 [[(0 : ℚ)], [1], [2]] = .ok k := by
  have hpca : ∀ m, ∃ r, totalEnv.pca m = .ok r := fun m => ⟨m, rfl⟩
  have hfit : ∀ spec rng2 m, ∃ fr, totalEnv.fitPredict spec rng2 m = .ok fr :=
    fun spec rng2 m => ⟨_, rfl⟩
  exact ⟨⟨hpca, hfit⟩,
    determine_optimal_clusters_total totalEnv 0 [[(0 : ℚ)], [1], [2]] hpca hfit⟩

theorem foldlM_inv {σ α : Type} (f : σ → α → Except String σ) (P : σ → Prop) :
    ∀ (l : List α) (init fin : σ),
      (∀ s s' a, a ∈ l → f s a = .ok s' → P s → P s') →
      l.foldlM f init = .ok fin → P init → P fin := by
  intro l
  induction l with
  | nil =>
    intro init fin _ hfold hinit
    rw [List.foldlM_nil] at hfold
    have h' : Except.ok (ε := String) init = .ok fin := hfold
    rw [← Except.ok.inj h']
    exact hinit
  | cons a l ih =>
    intro init fin hstep hfold hinit
    rw [List.foldlM_cons] at hfold
    cases hfa : f init a with
    | error e =>
      rw [hfa] at hfold
      have h' : (Except.error e : Except String σ) = .ok fin := hfold
      exact Except.noConfusion h'
    | ok s1 =>
      rw [hfa] at hfold
      exact ih s1 fin (fun s s' b hb => hstep s s' b (by simp [hb]))
        hfold (hstep init s1 a (by simp) hfa hinit)

theorem trialStep_best (env : SklearnEnv) (rng : ℕ) (sample : List (List ℚ))
    (st st' : TrialState) (k : ℕ)
    (h : trialStep env rng sample st k = .ok st') :
    st'.best = st.best ∨ st'.best = k := by
  unfold trialStep at h
  cases hf : env.fitPredict
      (if sample.length > 10000 then trialMiniBatchSpec k else trialKMeansSpec k)
      rng sample with
  | error e =>
    rw [hf] at h
    exact absurd h (by simp)
  | ok fr =>
    rw [hf] at h
    dsimp only at h
    have hup := Except.ok.inj h
    rw [← hup]
    unfold trialUpdate
    split
    · split
      · exact Or.inl rfl
      · split
        · exact Or.inr rfl
        · exact Or.inl rfl
    · exact Or.inl rfl

theorem fold_best_bounds (env : SklearnEnv) (rng : ℕ) (sample : List (List ℚ))
    (cands : List ℕ) (hi : ℕ) (hhi : 3 ≤ hi)
    (hc : ∀ c ∈ cands, 3 ≤ c ∧ c ≤ hi) (st : TrialState)
    (hfold : cands.foldlM (trialStep env rng sample) ⟨-1, 3, none⟩ = .ok st) :
    3 ≤ st.best ∧ st.best ≤ hi := by
  apply foldlM_inv (trialStep env rng sample) (fun s => 3 ≤ s.best ∧ s.best ≤ hi)
    cands ⟨-1, 3, none⟩ st ?_ hfold ⟨le_refl 3, hhi⟩
  intro s s' a ha hstep hPs
  rcases trialStep_best env rng sample s s' a hstep with h | h
  · rw [h]
    exact hPs
  · rw [h]
    exact hc a ha

/-- C6 counterexample: at `N = 2` (smallest valid input) the tiny-tier formula
`clamp(N//2, 2, 5)` returns `k = 2 = N`, which violates `k ≤ N − 1 = 1`. -/
theorem determine_optimal_clusters_two_exceeds :
    determine_optimal_clusters stubEnv 0 [[(0 : ℚ)], [1]] = .ok 2 ∧
      ¬(2 ≤ ([[(0 : ℚ)], [1]] : List (List ℚ)).length - 1) := by
  refine ⟨by rfl, by norm_num⟩

/-- C6 amended: with the statistical library available, the selected `k`
satisfies `2 ≤ k ≤ max 2 (N − 1)` for every input of `N ≥ 2` vectors and every
behaviour of the external trials — the upper bound `N − 1` holds for `N ≥ 3`
but is exceeded at `N = 2`, where the tiny tier returns `k = 2`. -/
theorem determine_optimal_clusters_bounds (env : SklearnEnv) (rng : ℕ)
    (vectors : List (List ℚ)) (k : ℕ) (hav : env.available = true)
    (hN : 2 ≤ vectors.length)
    (hk : determine_optimal_clusters env rng vectors = .ok k) :
    2 ≤ k ∧ k ≤ max 2 (vectors.length - 1) := by
  unfold determine_optimal_clusters at hk
  rw [hav, if_neg (by simp)] at hk
  by_cases h20 : vectors.length < 20
  · rw [if_pos h20] at hk
    have hke := Except.ok.inj hk
    omega
  · rw [if_neg h20] at hk
    by_cases h400 : vectors.length ≥ 400
    · rw [if_pos h400] at hk
      have hke := Except.ok.inj hk
      omega
    · rw [if_neg h400] at hk
      cases hp : (if (vectors.getD 0 []).length > 100 then env.pca vectors
          else .ok vectors) with
      | error e =>
        rw [hp] at hk
        exact absurd hk (by simp)
      | ok reduced =>
        rw [hp] at hk
        dsimp only at hk
        split at hk
        · exact absurd hk (by simp)
        · rename_i st hfold
          have hb := fold_best_bounds env rng _ _ (min 40 (vectors.length / 5))
            (by omega)
            (fun c hcmem => by
              have hmem := (List.takeWhile_sublist _).mem hcmem
              have hb2 := mem_upRange hmem
              omega) st hfold
          split at hk
          · have hke := Except.ok.inj hk
            have hs : Nat.sqrt (vectors.length / 2) < 15 := by
              rw [Nat.sqrt_lt]
              omega
            omega
          · have hke := Except.ok.inj hk
            omega

/-- Witness for the amended C6 at `N = 2`. -/
theorem determine_optimal_clusters_bounds_witness :
    (stubEnv.available = true ∧ 2 ≤ ([[(0 : ℚ)], [1]] : List (List ℚ)).length ∧
      determine_optimal_clusters stubEnv 0 [[(0 : ℚ)], [1]] = .ok 2) ∧
    (2 ≤ 2 ∧ 2 ≤ max 2 (([[(0 : ℚ)], [1]] : List (List ℚ)).length - 1)) := by
  have h1 : determine_optimal_clusters stubEnv 0 [[(0 : ℚ)], [1]] = .ok 2 := by rfl
  exact ⟨⟨rfl, by norm_num, h1⟩,
    determine_optimal_clusters_bounds stubEnv 0 [[(0 : ℚ)], [1]] 2 rfl
      (by norm_num) h1⟩

/-- C7: with the statistical library available, for every input of `N ≥ 400`
vectors the selector returns exactly `clamp(N // 50, 30, 40)`
(`min(40, max(30, N // 50))`), regardless of every other environment
behaviour. -/
theorem determine_optimal_clusters_huge (env : SklearnEnv) (rng : ℕ)
    (vectors : List (List ℚ)) (hav : env.available = true)
    (hN : 400 ≤ vectors.length) :
    determine_optimal_clusters env rng vectors =
      .ok (min 40 (max 30 (vectors.length / 50))) := by
  unfold determine_optimal_clusters
  rw [hav, if_neg (by simp), if_neg (by omega), if_pos (by omega)]

/-- Witness for C7 at 450 vectors of dimension 50 (the end-to-end test shape):
the huge tier returns `k = 30 ∈ [30, 40]`. -/
theorem determine_optimal_clusters_huge_witness :
    (stubEnv.available = true ∧
      400 ≤ (List.replicate 450 (List.replicate 50 (0 : ℚ))).length) ∧
    determine_optimal_clusters stubEnv 0
      (List.replicate 450 (List.replicate 50 (0 : ℚ))) = .ok 30 ∧
    30 ≤ 30 ∧ 30 ≤ 40 := by
  have hlen : (List.replicate 450 (List.replicate 50 (0 : ℚ))).length = 450 :=
    List.length_replicate 450 _
  have h := determine_optimal_clusters_huge stubEnv 0
    (List.replicate 450 (List.replicate 50 (0 : ℚ))) rfl (by rw [hlen]; omega)
  rw [hlen] at h
  norm_num at h
  refine ⟨⟨rfl, by rw [hlen]; omega⟩, h, le_refl 30, by norm_num⟩

end Spec2Proof
